import Mathlib

/-!
Shallow embedding of the yalog4ts logging core (src/lib/logger.ts,
src/lib/logger-factory.ts, src/src/console-appender.ts: the
LocalStorageAppender) and proofs about the behaviour its specification
describes.

JavaScript conventions captured by the embedding:
* `Level` is the TS enum `{OFF=0, ERROR=1, WARN=2, INFO=3, DEBUG=4, TRACE=5}`;
  levels are modelled as `Nat` with the enum's numeric values.
* `null`/`undefined` level slots are modelled as `Option Nat` (`none`).
  JS truthiness tests (`if (level)`, `a || b`) treat `0` (= `OFF`) the same
  as `null`/`undefined`; the embedding spells those tests out explicitly.
* Plain JS objects used as string-keyed maps are modelled as insertion
  ordered association lists (`List (String × _)`); assigning to an existing
  key keeps its position (`objSet`), `Object.keys`/`Object.values` are
  `map Prod.fst`/`map Prod.snd`.
-/

namespace Yalog

/-! ## Level model (src/lib/logger.ts, `enum Level` and `getValidLevel`) -/

/-- `DEFAULT_ROOT_LEVEL = Level.INFO` (src/lib/logger-factory.ts). -/
def DEFAULT_ROOT_LEVEL : Nat := 3

/-- The enum's reverse mapping `Level[n]`, used by `formatLogMessage` and
`storeConfig`; out-of-range numbers map to JS `undefined`, which template
interpolation renders as the string `"undefined"`. -/
def levelName : Nat → String
  | 0 => "OFF"
  | 1 => "ERROR"
  | 2 => "WARN"
  | 3 => "INFO"
  | 4 => "DEBUG"
  | 5 => "TRACE"
  | _ => "undefined"

/-- The enum's forward mapping `Level[name]` for string names; `none` models
JS `undefined` (name not in the enum's table). -/
def levelOfName : String → Option Nat
  | "OFF" => some 0
  | "ERROR" => some 1
  | "WARN" => some 2
  | "INFO" => some 3
  | "DEBUG" => some 4
  | "TRACE" => some 5
  | _ => none

/-- The possible runtime inputs of `getValidLevel(level: string | Level | number)`:
a string, a number (TS `Level` values are numbers at runtime), JS `null` or
JS `undefined`. -/
inductive LevelInput where
  | str (s : String)
  | num (n : Int)
  | nullv
  | undef
deriving DecidableEq

/-- ASCII whitespace for the purposes of JS string-to-number coercion. -/
def isWhite (c : Char) : Bool :=
  c = ' ' ∨ c = '\t' ∨ c = '\n' ∨ c = '\r'

/-- The numeric value of a decimal digit character. -/
def digitVal (c : Char) : Option Nat :=
  if '0' ≤ c ∧ c ≤ '9' then some (c.toNat - '0'.toNat) else none

/-- Parse a non-empty all-digit character list as a natural number. -/
def parseDigits (cs : List Char) : Option Nat :=
  if cs = [] then none
  else
    cs.foldl
      (fun acc c =>
        match acc, digitVal c with
        | some n, some d => some (n * 10 + d)
        | _, _ => none)
      (some 0)

/-- JS unary plus on a string (`+level`); `none` models `NaN`. Whitespace is
trimmed, the empty string converts to `0`, an optional sign precedes decimal
digits. Restricted to integer literals: the only strings the program feeds
in are level names, user selectors and stored level-name strings, none of
which are non-integer numerals. -/
def jsStringToNumber (s : String) : Option Int :=
  let t := ((s.data.dropWhile isWhite).reverse.dropWhile isWhite).reverse
  match t with
  | [] => some 0
  | '-' :: rest => (parseDigits rest).map (fun n => -(n : Int))
  | '+' :: rest => (parseDigits rest).map (fun n => (n : Int))
  | _ => (parseDigits t).map (fun n => (n : Int))

/-- `getValidLevel` (src/lib/logger.ts lines 285-303). Returns `none` for the
JS `null` result. String inputs that parse as a number are rejected; otherwise
the name is looked up in the enum table (`+Level[level]`, `NaN` ⇒ `null`).
Number inputs are valid iff the reverse mapping `Level[level]` is defined,
i.e. the number is one of the canonical ordinals 0..5. -/
def getValidLevel : LevelInput → Option Nat
  | .nullv => none
  | .undef => none
  | .str s =>
      match jsStringToNumber s with
      | some _ => none
      | none => levelOfName s
  | .num n => if 0 ≤ n ∧ n ≤ 5 then some n.toNat else none

/-! ## Logger (src/lib/logger.ts, class `Logger`)

`α` is the type of appender instances; the logger only stores them and hands
calls to them, so it is fully polymorphic in `α`. -/

/-- The mutable state of a `Logger` instance. `level = none` models a `null`
or `undefined` local level (`theLevel`). `effectiveLevel` is the stored
derived field, recomputed by the `level`/`rootLevel` setters. -/
structure Logger (α : Type) where
  name : String
  rootLevel : Nat
  level : Option Nat
  effectiveLevel : Nat
  appenders : List α
deriving DecidableEq

/-- `calculateEffectiveLevel`: `this.effectiveLevel = this.level || this.rootLevel`.
JS `||` returns the right operand whenever the left is falsy, and the numeric
value `0` (= `Level.OFF`) is falsy, exactly like `null`/`undefined`. -/
def Logger.calculateEffectiveLevel (l : Logger α) : Logger α :=
  { l with effectiveLevel :=
      match l.level with
      | some v => if v = 0 then l.rootLevel else v
      | none => l.rootLevel }

/-- The `rootLevel` setter: assign `theRootLevel`, then recompute. -/
def Logger.setRootLevel (l : Logger α) (v : Nat) : Logger α :=
  Logger.calculateEffectiveLevel { l with rootLevel := v }

/-- The `level` setter: assign `theLevel`, then recompute. -/
def Logger.setLevel (l : Logger α) (v : Option Nat) : Logger α :=
  Logger.calculateEffectiveLevel { l with level := v }

/-- Plain field assignment `logger.appenders = ...` (no recomputation). -/
def Logger.setAppenders (l : Logger α) (as : List α) : Logger α :=
  { l with appenders := as }

/-- The constructor: runs the `rootLevel` setter (with `theLevel` still
undefined), then the `level` setter, as the TS constructor body does. -/
def Logger.new (name : String) (rootLevel : Nat) (level : Option Nat)
    (appenders : List α) : Logger α :=
  (({ name := name, rootLevel := rootLevel, level := none,
      effectiveLevel := 0, appenders := appenders } : Logger α).setRootLevel
        rootLevel).setLevel level

/-- `shouldLog`: `level <= this.effectiveLevel`. -/
def Logger.shouldLog (l : Logger α) (level : Nat) : Bool :=
  level ≤ l.effectiveLevel

/-- `formatLogMessage`: the template string `[${Level[level]}] - ${this.name}: ${msg}`. -/
def Logger.formatLogMessage (l : Logger α) (level : Nat) (msg : String) : String :=
  "[" ++ levelName level ++ "] - " ++ l.name ++ ": " ++ msg

/-- One observed invocation of an appender method: the appender it went to,
the method name (`logFunction`), the first argument and the forwarded extra
positional arguments (of element type `β`). -/
structure AppCall (α β : Type) where
  appender : α
  method : String
  first : String
  extras : List β
deriving DecidableEq

/-- `Logger.log`: if `shouldLog(requiredLevel)`, `forEach` appender receives
`appender[logFunction](format ? formatLogMessage(...) : msg, ...optionalParams)`.
The returned list records the dispatched calls in appender-list order
(dispatch is synchronous and returns nothing, so the call list is the whole
observable effect). -/
def Logger.log (l : Logger α) (requiredLevel : Nat) (logFunction : String)
    (msg : String) (optionalParams : List β) (format : Bool) : List (AppCall α β) :=
  if l.shouldLog requiredLevel then
    l.appenders.map fun a =>
      { appender := a, method := logFunction,
        first := if format then l.formatLogMessage requiredLevel msg else msg,
        extras := optionalParams }
  else []

/-- `Logger.error`. -/
def Logger.error (l : Logger α) (msg : String) (optionalParams : List β) :
    List (AppCall α β) :=
  l.log 1 "error" msg optionalParams true

/-- `Logger.warn`. -/
def Logger.warn (l : Logger α) (msg : String) (optionalParams : List β) :
    List (AppCall α β) :=
  l.log 2 "warn" msg optionalParams true

/-- `Logger.info`. -/
def Logger.info (l : Logger α) (msg : String) (optionalParams : List β) :
    List (AppCall α β) :=
  l.log 3 "info" msg optionalParams true

/-- `Logger.debug`. -/
def Logger.debug (l : Logger α) (msg : String) (optionalParams : List β) :
    List (AppCall α β) :=
  l.log 4 "debug" msg optionalParams true

/-- `Logger.trace`. -/
def Logger.trace (l : Logger α) (msg : String) (optionalParams : List β) :
    List (AppCall α β) :=
  l.log 5 "trace" msg optionalParams true

/-- `Logger.dir` (default level `DEBUG = 4`, unformatted forwarding). -/
def Logger.dir (l : Logger α) (obj : String) (level : Nat) : List (AppCall α β) :=
  l.log level "dir" obj [] false

/-- `Logger.dirxml` (default level `DEBUG = 4`, unformatted forwarding). -/
def Logger.dirxml (l : Logger α) (obj : String) (level : Nat) : List (AppCall α β) :=
  l.log level "dirxml" obj [] false

/-- `Logger.group` (always gated at `DEBUG`). -/
def Logger.group (l : Logger α) (msg : String) (optionalParams : List β) :
    List (AppCall α β) :=
  l.log 4 "group" msg optionalParams true

/-- The five severity methods, for quantifying over them at once. -/
inductive Severity where
  | error | warn | info | debug | trace
deriving DecidableEq

/-- The fixed required level of each severity method. -/
def Severity.levelOf : Severity → Nat
  | .error => 1
  | .warn => 2
  | .info => 3
  | .debug => 4
  | .trace => 5

/-- The appender method key each severity method dispatches to. -/
def Severity.methodName : Severity → String
  | .error => "error"
  | .warn => "warn"
  | .info => "info"
  | .debug => "debug"
  | .trace => "trace"

/-- Dispatch of one severity call on a logger. -/
def Logger.severityCall (l : Logger α) (s : Severity) (msg : String)
    (ps : List β) : List (AppCall α β) :=
  match s with
  | .error => l.error msg ps
  | .warn => l.warn msg ps
  | .info => l.info msg ps
  | .debug => l.debug msg ps
  | .trace => l.trace msg ps

/-! ## Mini regex engine

`setLogLevel` builds `new RegExp('^' + arg + '$')` after
`arg = arg.replace('*', '.*')` (a string pattern, so only the FIRST `'*'` is
replaced) and tests it against every cached logger name. The patterns that
can arise are sequences of literal characters, `'.'` (match any character)
and the `'*'` quantifier (zero or more of the preceding atom). `regexTest`
models the anchored full-string test `^pattern$`; a pattern JS would reject
as a syntax error (a quantifier with nothing to repeat) parses to `none`
and `regexTest` returns `false` for it. -/

/-- A regex atom: `'.'` or a literal character. -/
inductive RAtom where
  | any
  | lit (c : Char)
deriving DecidableEq

/-- An atom with an optional `'*'` quantifier. -/
structure RTok where
  atom : RAtom
  starred : Bool
deriving DecidableEq

/-- Parse a pattern, accumulator in reverse order; `'*'` attaches to the
previous atom (and is invalid with nothing to repeat, or doubled). -/
def parseRegexAux : List Char → List RTok → Option (List RTok)
  | [], acc => some acc.reverse
  | '*' :: rest, acc =>
      match acc with
      | ⟨a, false⟩ :: acc' => parseRegexAux rest (⟨a, true⟩ :: acc')
      | _ => none
  | '.' :: rest, acc => parseRegexAux rest (⟨.any, false⟩ :: acc)
  | c :: rest, acc => parseRegexAux rest (⟨.lit c, false⟩ :: acc)

/-- Parse a whole pattern string. -/
def parseRegex (s : String) : Option (List RTok) :=
  parseRegexAux s.data []

/-- Does an atom match one character? -/
def atomMatch : RAtom → Char → Bool
  | .any, _ => true
  | .lit c, d => c = d

/-- Full-string matching with an explicit recursion budget (every recursive
call shrinks the combined size of the token list and the input, so any fuel
beyond that total is enough; the budget keeps the recursion structural). A
starred token either is skipped or consumes one matching character and stays
active. -/
def rmatchFuel : Nat → List RTok → List Char → Bool
  | 0, _, _ => false
  | _ + 1, [], [] => true
  | _ + 1, [], _ :: _ => false
  | _ + 1, ⟨_, false⟩ :: _, [] => false
  | k + 1, ⟨a, false⟩ :: ts, c :: cs => atomMatch a c && rmatchFuel k ts cs
  | k + 1, ⟨a, true⟩ :: ts, s =>
      rmatchFuel k ts s ||
        match s with
        | [] => false
        | c :: cs => atomMatch a c && rmatchFuel k (⟨a, true⟩ :: ts) cs

/-- Full-string matching of a token list against the input (the `^...$`
anchoring of the source's pattern), with an always-sufficient budget. -/
def rmatch (ts : List RTok) (s : List Char) : Bool :=
  rmatchFuel (ts.length + s.length + 1) ts s

/-- `new RegExp('^' + pattern + '$').test(s)`. -/
def regexTest (pattern s : String) : Bool :=
  match parseRegex pattern with
  | some ts => rmatch ts s.data
  | none => false

/-- `arg.replace('*', '.*')` on the character list: a string first argument to
`String.prototype.replace` replaces only the first occurrence. -/
def replaceFirstStarL : List Char → List Char
  | [] => []
  | c :: rest => if c = '*' then '.' :: '*' :: rest else c :: replaceFirstStarL rest

/-- `arg.replace('*', '.*')`. -/
def replaceFirstStar (s : String) : String :=
  ⟨replaceFirstStarL s.data⟩

/-! ## LocalStorageAppender (src/src/console-appender.ts, `LocalStorageAppender`)

`ε` is the type of a stored log entry. The source entry is the array
`[timestamp-prefixed string, ...optional extras]`; `mkEntry` builds that
shape, while the rotation logic is polymorphic in the entry. The storage
reference is assumed present (the constructor always receives one); the
`else` branch of `logAndRotate` only prints an error. -/

/-- What the storage key `log` holds: a parseable JSON array of entries, or
a blob on which `JSON.parse` throws. -/
inductive StoredBlob (ε : Type) where
  | entries (es : List ε)
  | corrupt
deriving DecidableEq

/-- Appender state: the blob under the storage key (`none` = key absent,
`getItem` returns `null`) and the in-memory `logCache` (`none` = not yet
hydrated). -/
structure LSState (ε : Type) where
  stored : Option (StoredBlob ε)
  logCache : Option (List ε)
deriving DecidableEq

/-- `LOG_ENTRY_COUNT = 200`, the rotation capacity. -/
def LOG_ENTRY_COUNT : Nat := 200

/-- The entry pushed by `logAndRotate`: an array whose head is the template
string of `new Date().toUTCString()`, a space and `obj`, followed by
`...(optionalObj ? optionalObj : [])`; `now` stands for the wall-clock
string. -/
def mkEntry (now obj : String) (extras : List String) : List String :=
  (now ++ " " ++ obj) :: extras

/-- `logAndRotate`: hydrate the cache on first use (`JSON.parse` failure is
caught and `JSON.parse(null)` yields `null`, both leaving the cache `[]`),
`shift()` the oldest entry when the cache has reached capacity, push the new
entry, and write the whole cache back to storage. -/
def logAndRotate (st : LSState ε) (e : ε) : LSState ε :=
  let cache :=
    match st.logCache with
    | some c => c
    | none =>
        match st.stored with
        | some (.entries es) => es
        | some .corrupt => []
        | none => []
  let cache := if LOG_ENTRY_COUNT ≤ cache.length then cache.tail else cache
  let cache := cache ++ [e]
  { stored := some (.entries cache), logCache := some cache }

/-- `getLastLog`: `JSON.parse(this.localStorage.getItem(LOCAL_STORAGE_KEY))`
inside try/catch. It reads only `stored`, never `logCache`. An absent key
gives `JSON.parse(null)`, which does not throw and returns JS `null`
(modelled `none`); a corrupt blob throws and the catch returns `[]`. -/
def getLastLog (st : LSState ε) : Option (List ε) :=
  match st.stored with
  | none => none
  | some (.entries es) => some es
  | some .corrupt => some []

/-- `n` successive logging calls against initially empty storage, call `i`
(1-based) producing entry `f i`; every severity method plus `dir`/`dirxml`
funnels into `logAndRotate` with one entry. -/
def runCalls (f : Nat → ε) : Nat → LSState ε
  | 0 => { stored := none, logCache := none }
  | n + 1 => logAndRotate (runCalls f n) (f (n + 1))

/-- The expected buffer contents after `n ≥ 1` calls: the entries of the most
recent `min n 200` calls, oldest first — calls `n + 1 - min n 200` through
`n`. -/
def bufferAfter (f : Nat → ε) (n : Nat) : List ε :=
  (List.range' (n + 1 - min n 200) (min n 200)).map f

/-! ## LoggerFactory (src/lib/logger-factory.ts)

The singleton's mutable state, with storage modelled as the content of the
one persisted key (`'loggerfactory'`). `α` is again the appender instance
type. The factory's `appenders` field starts out `undefined` in TS and is
only ever read through `this.appenders ? ... : []` guards (or after being
assigned); the model folds `undefined` into the empty map. -/

/-- A catalog entry of `registeredAppenders`: a ready instance or a
zero-argument producer. -/
inductive AppenderEntry (α : Type) where
  | inst (a : α)
  | fromFactory (f : Unit → α)

/-- The parsed persisted record under the key `'loggerfactory'`: for `.json`,
the `levels` and `appenders` fields as `JSON.parse` delivers them (either may
be missing, hence `Option`); `.corrupt` is a blob `JSON.parse` throws on. -/
inductive StoredItem where
  | json (levels : Option (List (String × String)))
      (appenders : Option (List String))
  | corrupt
deriving DecidableEq

/-- Lookup in a JS-object association list. -/
def objGet (m : List (String × β)) (k : String) : Option β :=
  (m.find? fun p => p.1 = k).map Prod.snd

/-- Assignment `m[k] = v` on a JS-object association list: an existing key
keeps its position, a new key is appended. -/
def objSet (m : List (String × β)) (k : String) (v : β) : List (String × β) :=
  if m.any fun p => p.1 = k then
    m.map fun p => if p.1 = k then (k, v) else p
  else m ++ [(k, v)]

/-- The factory singleton's state. -/
structure FactoryState (α : Type) where
  storedLevels : List (String × Nat)
  cachedLoggers : List (String × Logger α)
  theRootLevel : Nat
  appenders : List (String × α)
  registeredAppenders : List (String × AppenderEntry α)
  hasStorage : Bool
  storageItem : Option StoredItem

/-- `initLevels`: `storedLevels = { __root: DEFAULT_ROOT_LEVEL }` and
`theRootLevel = getValidLevel(DEFAULT_ROOT_LEVEL)` (which is `INFO`). -/
def initLevels (st : FactoryState α) : FactoryState α :=
  { st with storedLevels := [("__root", DEFAULT_ROOT_LEVEL)],
            theRootLevel := DEFAULT_ROOT_LEVEL }

/-- `getValidAppender`: catalog lookup; a producer entry is invoked for a
fresh instance; an unknown key returns `undefined`. -/
def getValidAppender (st : FactoryState α) (name : String) : Option α :=
  match objGet st.registeredAppenders name with
  | some (.inst a) => some a
  | some (.fromFactory f) => some (f ())
  | none => none

/-- `storeConfig`: when a storage reference exists, serialize
`levels` as name → level-name-string (via the reverse enum mapping) and
`appenders` as `Object.keys(this.appenders)`, and write the record. -/
def storeConfig (st : FactoryState α) : FactoryState α :=
  if st.hasStorage then
    { st with
      storageItem :=
        some (.json (some (st.storedLevels.map (fun p => (p.1, levelName p.2))))
          (some (st.appenders.map Prod.fst))) }
  else st

/-- One step of the `levels` reduce of `restoreConfig`: the stored string is
normalized with `getValidLevel`; the entry is recorded only under
`if (level)`, i.e. only when the result is truthy — a failed normalization
(`null`) AND a successful normalization to `OFF = 0` are both dropped. -/
def keptStep (memo : List (String × Nat)) (p : String × String) :
    List (String × Nat) :=
  match getValidLevel (.str p.2) with
  | some v => if v = 0 then memo else objSet memo p.1 v
  | none => memo

/-- The per-entry outcome of `keptStep`: `some` exactly when the entry is
recorded, with the key/value it records. -/
def keptOne (p : String × String) : Option (String × Nat) :=
  match getValidLevel (.str p.2) with
  | some v => if v = 0 then none else some (p.1, v)
  | none => none

/-- The `levels` reduce of `restoreConfig`. The accumulator starts
`undefined` and becomes an object on the first kept entry; an empty result
list models the still-`undefined` accumulator. -/
def keptLevels (entries : List (String × String)) : List (String × Nat) :=
  entries.foldl keptStep []

/-- The root-level extraction of `restoreConfig`:
`parsed.levels.__root ? getValidLevel(parsed.levels.__root) : undefined` —
the `__root` string itself is truthiness-tested (an empty string is falsy)
before being normalized. -/
def restoredRoot (entries : List (String × String)) : Option Nat :=
  match objGet entries "__root" with
  | some s => if s = "" then none else getValidLevel (.str s)
  | none => none

/-- The `appenders` reduce of `restoreConfig` (and of `setLogAppenders`):
resolve each key through `getValidAppender`, keep the ones that resolve;
an empty result models the still-`undefined` accumulator. -/
def resolveAppenders (st : FactoryState α) (keys : List String) :
    List (String × α) :=
  keys.foldl
    (fun memo k =>
      match getValidAppender st k with
      | some a => objSet memo k a
      | none => memo)
    []

/-- The final sweep of `restoreConfig` over `cachedLoggers`: each logger's
`level` is set from `storedLevels[name]` under a truthiness test (a stored
`OFF` behaves like no override), then its `rootLevel`, then its `appenders`
(a plain assignment of `Object.values(this.appenders)`). -/
def refreshLoggers (st : FactoryState α) : FactoryState α :=
  { st with cachedLoggers := st.cachedLoggers.map (fun p =>
      (p.1,
        ((p.2.setLevel
            (match objGet st.storedLevels p.1 with
             | some v => if v = 0 then none else some v
             | none => none)).setRootLevel st.theRootLevel).setAppenders
          (st.appenders.map Prod.snd))) }

/-- `restoreConfig` (src/lib/logger-factory.ts lines 374-430). With no item
(or no storage) the whole parse/adopt block is skipped; a corrupt item leaves
`levels`, `rootLevel` and `appenders` undefined, so the adoption test fails.
Adoption happens only under the truthiness test
`if (levels && rootLevel && appenders)`: the kept-levels object exists, the
root normalized to a truthy (non-`OFF`) level and at least one appender
resolved; otherwise only `initLevels()` runs (the active appenders are NOT
touched). The logger sweep runs in every case. -/
def restoreConfig (st : FactoryState α) : FactoryState α :=
  let item := if st.hasStorage then st.storageItem else none
  let st' :=
    match item with
    | none => st
    | some .corrupt => initLevels st
    | some (.json plevels pappenders) =>
        let levels := match plevels with
          | some entries => keptLevels entries
          | none => []
        let rootLevel : Option Nat := match plevels with
          | some entries => restoredRoot entries
          | none => none
        let aps := match pappenders with
          | some keys => resolveAppenders st keys
          | none => []
        match rootLevel with
        | some rv =>
            if rv = 0 then initLevels st
            else if levels = [] then initLevels st
            else if aps.isEmpty then initLevels st
            else
              { st with storedLevels := levels, theRootLevel := rv,
                        appenders := aps }
        | none => initLevels st
  refreshLoggers st'

/-- `getLogger`: an empty identifier falls back to the name `'default'`
(after reporting through `console.error`); a cache hit returns the cached
instance unchanged; a cache miss seeds a new `Logger` from the current root
level, the stored override for that name (under a truthiness test, so a
stored `OFF` is not used) and `Object.values` of the active appenders, and
appends it to the cache. -/
def getLogger (st : FactoryState α) (identifier : String) :
    FactoryState α × Logger α :=
  let theName := if identifier = "" then "default" else identifier
  match objGet st.cachedLoggers theName with
  | some l => (st, l)
  | none =>
      let lv : Option Nat :=
        match objGet st.storedLevels theName with
        | some v => if v = 0 then none else some v
        | none => none
      let logger := Logger.new theName st.theRootLevel lv
        (st.appenders.map Prod.snd)
      ({ st with cachedLoggers := st.cachedLoggers ++ [(theName, logger)] },
        logger)

/-- `clear`: `initLevels()`, reset every cached logger (`level = null` then
`rootLevel = theRootLevel`), `storeConfig()`, and only THEN
`this.appenders = {}` — the persisted record still carries the pre-clear
appender keys and the cached loggers keep their old appender lists. -/
def clear (st : FactoryState α) : FactoryState α × String :=
  let st1 := initLevels st
  let st2 := { st1 with cachedLoggers := st1.cachedLoggers.map (fun p =>
      (p.1, (p.2.setLevel none).setRootLevel st1.theRootLevel)) }
  let st3 := storeConfig st2
  let st4 := { st3 with appenders := [] }
  (st4,
    "Cleared log levels and appenders. New root level is '" ++
      levelName st4.theRootLevel ++ "'.")

/-- The selector argument of `setLogLevel`: a string (name/wildcard mode) or
a number (index mode); any other runtime type is rejected with a message and
no mutation, which the model leaves out. -/
inductive Selector where
  | byName (s : String)
  | byIndex (n : Int)
deriving DecidableEq

/-- The logger mutation of the `setLogLevel` forEach: each matching logger's
`level` setter receives the normalized level. `i` is the running index. -/
def sweepLoggers (test : Nat → String → Bool) (lv : Nat) :
    Nat → List (String × Logger α) → List (String × Logger α)
  | _, [] => []
  | i, p :: ps =>
      (if test i p.1 then (p.1, p.2.setLevel (some lv)) else p) ::
        sweepLoggers test lv (i + 1) ps

/-- The stored-overrides mutation of the same forEach:
`this.storedLevels[loggerName] = theLevel` for each match, in iteration
order. -/
def sweepStored (test : Nat → String → Bool) (lv : Nat) :
    Nat → List (String × Logger α) → List (String × Nat) → List (String × Nat)
  | _, [], m => m
  | i, p :: ps, m =>
      sweepStored test lv (i + 1) ps (if test i p.1 then objSet m p.1 lv else m)

/-- The `matches` list of the same forEach: the matched logger names in
iteration order. -/
def sweepMatches (test : Nat → String → Bool) :
    Nat → List (String × Logger α) → List String
  | _, [] => []
  | i, p :: ps =>
      (if test i p.1 then [p.1] else []) ++ sweepMatches test (i + 1) ps

/-- The name-mode no-match message. -/
def msgNoMatchName (pat : String) : String :=
  "No loggers matched /" ++ pat ++
    "/. You might want to use a wildcard? Type 'lf.help' for help."

/-- The index-mode no-match message. -/
def msgNoMatchIndex (n : Int) : String :=
  "Found no logger with index " ++ toString n ++
    ". Type 'lf.ll' to view the indices."

/-- The name-mode success message; a JS array interpolates as its elements
joined by commas. -/
def msgSuccessName (pat : String) (lv : Nat) (hits : List String) : String :=
  "Successfully set " ++ toString hits.length ++
    " logger(s) whose name matches /" ++ pat ++ "/ to level " ++
    levelName lv ++ ": " ++ String.intercalate "," hits

/-- The index-mode success message. -/
def msgSuccessIndex (n : Int) (lv : Nat) (hits : List String) : String :=
  "Successfully set logger with index " ++ toString n ++ " to level " ++
    levelName lv ++ ": " ++ String.intercalate "," hits

/-- `setLogLevel` (src/lib/logger-factory.ts lines 228-278). An invalid level
(`theLevel == null`, which `0 = OFF` passes) reports and returns `''` with no
mutation. In name mode the selector's FIRST `'*'` becomes `'.*'` and the
anchored pattern is tested against every cached name; in index mode
`arg === index` compares against the running index. Matching loggers get the
level via their setter and the stored overrides are updated; `storeConfig()`
runs after the sweep in both modes, matched or not; the returned message
depends on mode and on whether anything matched. -/
def setLogLevel (st : FactoryState α) (sel : Selector) (level : LevelInput) :
    FactoryState α × String :=
  match getValidLevel level with
  | none => (st, "")
  | some theLevel =>
      let test : Nat → String → Bool :=
        match sel with
        | .byName s0 => fun _ nm => regexTest (replaceFirstStar s0) nm
        | .byIndex n => fun i _ => (i : Int) = n
      let hits := sweepMatches test 0 st.cachedLoggers
      let st1 := { st with
        cachedLoggers := sweepLoggers test theLevel 0 st.cachedLoggers,
        storedLevels := sweepStored test theLevel 0 st.cachedLoggers
          st.storedLevels }
      let st2 := storeConfig st1
      (st2,
        match sel with
        | .byName s0 =>
            if hits = [] then msgNoMatchName (replaceFirstStar s0)
            else msgSuccessName (replaceFirstStar s0) theLevel hits
        | .byIndex n =>
            if hits = [] then msgNoMatchIndex n
            else msgSuccessIndex n theLevel hits)

/-- `setLogAppenders`: resolve each requested key; if at least one resolved,
replace the active appender map wholesale, push the new appender list into
every cached logger, persist and report the resolved keys; otherwise change
nothing and report the requested keys. -/
def setLogAppenders (st : FactoryState α) (appenderTypes : List String) :
    FactoryState α × String :=
  let resolved := resolveAppenders st appenderTypes
  if resolved.isEmpty then
    (st, "No valid Appenders given: \"" ++
      String.intercalate ", " appenderTypes ++ "\"!")
  else
    let st1 := { st with
      appenders := resolved,
      cachedLoggers := st.cachedLoggers.map (fun (p : String × Logger α) =>
        (p.1, p.2.setAppenders (resolved.map Prod.snd))) }
    (storeConfig st1,
      "Appenders \"" ++ String.intercalate ", " (resolved.map Prod.fst) ++
        "\" successfully set!")

/-- The root-level property setter `set level(level)`: an invalid input
returns silently; otherwise `theRootLevel`, every cached logger's
`rootLevel`, and `storedLevels.__root` are updated and the state persisted. -/
def setRootLevel (st : FactoryState α) (level : LevelInput) : FactoryState α :=
  match getValidLevel level with
  | none => st
  | some theLevel =>
      let st1 := { st with
        theRootLevel := theLevel,
        cachedLoggers := st.cachedLoggers.map (fun (p : String × Logger α) =>
          (p.1, p.2.setRootLevel theLevel)) }
      let st2 := { st1 with
        storedLevels := objSet st1.storedLevels "__root" theLevel }
      storeConfig st2

/-- The spec's reconfiguration invariant: every cached logger sees the
factory's current root level and the `Object.values` of its active appender
map. -/
def inSync (st : FactoryState α) : Prop :=
  ∀ p ∈ st.cachedLoggers,
    p.2.rootLevel = st.theRootLevel ∧
      p.2.appenders = st.appenders.map Prod.snd

instance instDecidableInSync [DecidableEq α] (st : FactoryState α) :
    Decidable (inSync st) :=
  List.decidableBAll _ st.cachedLoggers

/-- The in-memory factory and logger state (everything except the persisted
record) of `st'` coincides with that of `st`. -/
def unchangedCore (st' st : FactoryState α) : Prop :=
  st'.storedLevels = st.storedLevels ∧
    st'.cachedLoggers = st.cachedLoggers ∧
    st'.theRootLevel = st.theRootLevel ∧
    st'.appenders = st.appenders ∧
    st'.registeredAppenders = st.registeredAppenders

/-! ## Concrete states used by witnesses and counterexamples

They model the situation right after `init(window, storage, {})`: the console
appender (instance `0 : Nat`) registered and active, storage attached, and
one logger obtained from the factory. -/

/-- Factory state with one cached logger `"t"`, the console appender active,
and storage present. -/
def stBase : FactoryState Nat :=
  { storedLevels := [("__root", 3)]
    cachedLoggers := [("t", Logger.new "t" 3 none [0])]
    theRootLevel := 3
    appenders := [("console", 0)]
    registeredAppenders := [("console", .inst 0)]
    hasStorage := true
    storageItem := none }

/-- The persisted `levels` object of the C3 scenario: a valid root plus an
entry whose string normalizes to `OFF`. -/
def entsR : List (String × String) := [("__root", "INFO"), ("foo", "OFF")]

/-- The persisted `appenders` list of the C3 scenario. -/
def keysR : List String := ["console"]

/-- `stBase` with a persisted record containing `entsR`/`keysR`. -/
def stR : FactoryState Nat :=
  { stBase with storageItem := some (.json (some entsR) (some keysR)) }

/-- Factory state with one cached logger named `"aXbY"` (the C10 scenario). -/
def stC10 : FactoryState Nat :=
  { stBase with cachedLoggers := [("aXbY", Logger.new "aXbY" 3 none [0])] }

/-- The selector `"a*b*"` split around its first star: the part before it. -/
def preW : List Char := ['a']

/-- The selector `"a*b*"` split around its first star: the part after it. -/
def postW : List Char := ['b', '*']

/-! ## Helper lemmas: setter and operation field projections -/

@[simp] lemma setLevel_name (l : Logger α) (v : Option Nat) :
    (l.setLevel v).name = l.name := rfl

@[simp] lemma setLevel_rootLevel (l : Logger α) (v : Option Nat) :
    (l.setLevel v).rootLevel = l.rootLevel := rfl

@[simp] lemma setLevel_level (l : Logger α) (v : Option Nat) :
    (l.setLevel v).level = v := rfl

@[simp] lemma setLevel_appenders (l : Logger α) (v : Option Nat) :
    (l.setLevel v).appenders = l.appenders := rfl

lemma setLevel_effectiveLevel (l : Logger α) (v : Option Nat) :
    (l.setLevel v).effectiveLevel =
      match v with
      | some w => if w = 0 then l.rootLevel else w
      | none => l.rootLevel := rfl

@[simp] lemma setRootLevel_name (l : Logger α) (v : Nat) :
    (l.setRootLevel v).name = l.name := rfl

@[simp] lemma setRootLevel_rootLevel (l : Logger α) (v : Nat) :
    (l.setRootLevel v).rootLevel = v := rfl

@[simp] lemma setRootLevel_level (l : Logger α) (v : Nat) :
    (l.setRootLevel v).level = l.level := rfl

@[simp] lemma setRootLevel_appenders (l : Logger α) (v : Nat) :
    (l.setRootLevel v).appenders = l.appenders := rfl

lemma setRootLevel_effectiveLevel (l : Logger α) (v : Nat) :
    (l.setRootLevel v).effectiveLevel =
      match l.level with
      | some w => if w = 0 then v else w
      | none => v := rfl

@[simp] lemma setAppenders_name (l : Logger α) (as : List α) :
    (l.setAppenders as).name = l.name := rfl

@[simp] lemma setAppenders_rootLevel (l : Logger α) (as : List α) :
    (l.setAppenders as).rootLevel = l.rootLevel := rfl

@[simp] lemma setAppenders_level (l : Logger α) (as : List α) :
    (l.setAppenders as).level = l.level := rfl

@[simp] lemma setAppenders_appenders (l : Logger α) (as : List α) :
    (l.setAppenders as).appenders = as := rfl

@[simp] lemma storeConfig_storedLevels (st : FactoryState α) :
    (storeConfig st).storedLevels = st.storedLevels := by
  unfold storeConfig; split <;> rfl

@[simp] lemma storeConfig_cachedLoggers (st : FactoryState α) :
    (storeConfig st).cachedLoggers = st.cachedLoggers := by
  unfold storeConfig; split <;> rfl

@[simp] lemma storeConfig_theRootLevel (st : FactoryState α) :
    (storeConfig st).theRootLevel = st.theRootLevel := by
  unfold storeConfig; split <;> rfl

@[simp] lemma storeConfig_appenders (st : FactoryState α) :
    (storeConfig st).appenders = st.appenders := by
  unfold storeConfig; split <;> rfl

@[simp] lemma storeConfig_registeredAppenders (st : FactoryState α) :
    (storeConfig st).registeredAppenders = st.registeredAppenders := by
  unfold storeConfig; split <;> rfl

@[simp] lemma refreshLoggers_storedLevels (st : FactoryState α) :
    (refreshLoggers st).storedLevels = st.storedLevels := rfl

@[simp] lemma refreshLoggers_theRootLevel (st : FactoryState α) :
    (refreshLoggers st).theRootLevel = st.theRootLevel := rfl

@[simp] lemma refreshLoggers_appenders (st : FactoryState α) :
    (refreshLoggers st).appenders = st.appenders := rfl

@[simp] lemma initLevels_cachedLoggers (st : FactoryState α) :
    (initLevels st).cachedLoggers = st.cachedLoggers := rfl

@[simp] lemma initLevels_appenders (st : FactoryState α) :
    (initLevels st).appenders = st.appenders := rfl

@[simp] lemma initLevels_storedLevels (st : FactoryState α) :
    (initLevels st).storedLevels = [("__root", DEFAULT_ROOT_LEVEL)] := rfl

@[simp] lemma initLevels_theRootLevel (st : FactoryState α) :
    (initLevels st).theRootLevel = DEFAULT_ROOT_LEVEL := rfl

/-! ## Claim C1 -/

/-- Claim C1, counterexample: a logger whose local level is set to `OFF`
(one of the six canonical values, and present) does NOT get `OFF` as its
effective level — the JS `||` in `calculateEffectiveLevel` treats `OFF = 0`
as falsy and falls back to the root level `INFO = 3`. -/
theorem c1_counterexample :
    (((Logger.new "a" 3 none ([] : List Nat)).setLevel (some 0)).level =
      some 0) ∧
    (((Logger.new "a" 3 none ([] : List Nat)).setLevel (some 0)).effectiveLevel
      = 3) ∧
    (3 : Nat) ≠ 0 := by decide

/-- Claim C1 as amended: after any write to the local level or the root
level, the effective level equals the local level when it is present and not
`OFF`; when the local level is absent OR equal to `OFF` (which JS `||`
treats as falsy), the effective level equals the root level. A present
non-`OFF` local override wins regardless of whether it is more or less
verbose than the root level. -/
theorem c1_theorem (α : Type) (l : Logger α) (v : Option Nat) (r : Nat) :
    ((l.setLevel v).effectiveLevel =
      match v with
      | some w => if w = 0 then l.rootLevel else w
      | none => l.rootLevel) ∧
    ((l.setRootLevel r).effectiveLevel =
      match l.level with
      | some w => if w = 0 then r else w
      | none => r) ∧
    (∀ w : Nat, w ≠ 0 → (l.setLevel (some w)).effectiveLevel = w) := by
  refine ⟨setLevel_effectiveLevel l v, setRootLevel_effectiveLevel l r, ?_⟩
  intro w hw
  rw [setLevel_effectiveLevel]
  simp [hw]

/-- Claim C1, witness for the amended theorem's hypothesis `w ≠ 0`. -/
theorem c1_witness :
    (5 : Nat) ≠ 0 ∧
    ((Logger.new "a" 2 none ([] : List Nat)).setLevel (some 5)).effectiveLevel
      = 5 :=
  ⟨by decide, (c1_theorem Nat (Logger.new "a" 2 none []) (some 5) 0).2.2 5
    (by decide)⟩

/-! ## Claim C5 -/

/-- Claim C5: `getValidLevel` round-trips each canonical level name and
numeric code of `{OFF, ERROR, WARN, INFO, DEBUG, TRACE}` (codes 0-5; in
particular the codes 1-5 named by the claim), and returns the invalid
sentinel (`null`, not any valid level, and without throwing) for an
unrecognized string, an out-of-range number, a numeric string, `null` and
`undefined`. -/
theorem c5_theorem :
    (getValidLevel (.str "OFF") = some 0 ∧ getValidLevel (.num 0) = some 0) ∧
    (getValidLevel (.str "ERROR") = some 1 ∧ getValidLevel (.num 1) = some 1) ∧
    (getValidLevel (.str "WARN") = some 2 ∧ getValidLevel (.num 2) = some 2) ∧
    (getValidLevel (.str "INFO") = some 3 ∧ getValidLevel (.num 3) = some 3) ∧
    (getValidLevel (.str "DEBUG") = some 4 ∧ getValidLevel (.num 4) = some 4) ∧
    (getValidLevel (.str "TRACE") = some 5 ∧ getValidLevel (.num 5) = some 5) ∧
    getValidLevel (.str "bogus") = none ∧
    getValidLevel (.num 100) = none ∧
    getValidLevel (.num (-1)) = none ∧
    getValidLevel (.str "100") = none ∧
    getValidLevel .nullv = none ∧
    getValidLevel .undef = none := by decide

/-! ## Claim C9 -/

/-- Claim C9, counterexample: with the storage key absent (`getItem` returns
`null`), `getLastLog` returns `JSON.parse(null) = null` (modelled `none`),
not the empty sequence the claim requires — even while the in-memory cache
holds an entry. -/
theorem c9_counterexample :
    getLastLog (⟨none, some [5]⟩ : LSState Nat) = none ∧
    (none : Option (List Nat)) ≠ some [] := by decide

/-- Claim C9 as amended: `getLastLog` reads and parses the stored blob fresh
on every call — its result depends only on the stored value, never on the
in-memory cache — and never throws; it returns the empty sequence when the
stored value fails to parse, but returns JS `null` (not an empty sequence)
when the stored value is absent, because `JSON.parse(null)` yields `null`
without throwing. -/
theorem c9_theorem (ε : Type) (stored : Option (StoredBlob ε))
    (c c' : Option (List ε)) (es : List ε) :
    getLastLog (⟨stored, c⟩ : LSState ε) = getLastLog ⟨stored, c'⟩ ∧
    getLastLog (⟨none, c⟩ : LSState ε) = none ∧
    getLastLog (⟨some .corrupt, c⟩ : LSState ε) = some [] ∧
    getLastLog (⟨some (.entries es), c⟩ : LSState ε) = some es :=
  ⟨rfl, rfl, rfl, rfl⟩

/-! ## Claim C2 -/

/-- A passing `log` call fans out to every appender in list order. -/
lemma log_pass (l : Logger α) (rl : Nat) (fn msg : String) (ps : List β)
    (h : rl ≤ l.effectiveLevel) :
    l.log rl fn msg ps true =
      l.appenders.map (fun a =>
        { appender := a, method := fn,
          first := "[" ++ levelName rl ++ "] - " ++ l.name ++ ": " ++ msg,
          extras := ps }) := by
  have h' : l.shouldLog rl = true := decide_eq_true h
  simp [Logger.log, h', Logger.formatLogMessage]

/-- A suppressed `log` call dispatches nothing. -/
lemma log_drop (l : Logger α) (rl : Nat) (fn msg : String) (ps : List β)
    (fmt : Bool) (h : l.effectiveLevel < rl) :
    l.log rl fn msg ps fmt = [] := by
  have h' : l.shouldLog rl = false := decide_eq_false (Nat.not_le.mpr h)
  simp [Logger.log, h']

/-- Claim C2: a severity call whose fixed required level passes
`requiredLevel <= effectiveLevel` invokes the matching method on all N
appenders exactly once each, in appender-list order, with first argument
`"[LEVELNAME] - <loggerName>: <message>"` followed by exactly the supplied
extra arguments in original order; otherwise no appender method is invoked. -/
theorem c2_theorem {α β : Type} (l : Logger α) (s : Severity) (msg : String)
    (ps : List β) :
    (s.levelOf ≤ l.effectiveLevel →
      l.severityCall s msg ps =
        l.appenders.map (fun a =>
          { appender := a, method := s.methodName,
            first := "[" ++ levelName s.levelOf ++ "] - " ++ l.name ++ ": "
              ++ msg,
            extras := ps }) ∧
      (l.severityCall s msg ps).length = l.appenders.length) ∧
    (l.effectiveLevel < s.levelOf → l.severityCall s msg ps = []) := by
  constructor
  · intro h
    have heq : l.severityCall s msg ps =
        l.appenders.map (fun a =>
          { appender := a, method := s.methodName,
            first := "[" ++ levelName s.levelOf ++ "] - " ++ l.name ++ ": "
              ++ msg,
            extras := ps }) := by
      cases s <;>
        exact log_pass l _ _ msg ps h
    exact ⟨heq, by rw [heq, List.length_map]⟩
  · intro h
    cases s <;> exact log_drop l _ _ msg ps true h

/-- Claim C2, witness: a logger with two appenders at effective level `INFO`
receiving an `info` call (level 3 ≤ 3) produces the full fan-out, and a
`trace` call (level 5 > 3) produces none. -/
theorem c2_witness :
    (Severity.info.levelOf ≤
      (Logger.new "t" 3 none ([10, 20] : List Nat)).effectiveLevel) ∧
    ((Logger.new "t" 3 none ([10, 20] : List Nat)).severityCall .info "m"
        (["x"] : List String) =
      (Logger.new "t" 3 none ([10, 20] : List Nat)).appenders.map (fun a =>
        { appender := a, method := Severity.info.methodName,
          first := "[" ++ levelName Severity.info.levelOf ++ "] - " ++
            (Logger.new "t" 3 none ([10, 20] : List Nat)).name ++ ": " ++ "m",
          extras := (["x"] : List String) })) ∧
    ((Logger.new "t" 3 none ([10, 20] : List Nat)).effectiveLevel <
      Severity.trace.levelOf) ∧
    ((Logger.new "t" 3 none ([10, 20] : List Nat)).severityCall .trace "m"
        (["x"] : List String) = []) :=
  ⟨by decide,
    ((c2_theorem (Logger.new "t" 3 none [10, 20]) .info "m" ["x"]).1
      (by decide)).1,
    by decide,
    (c2_theorem (Logger.new "t" 3 none [10, 20]) .trace "m" ["x"]).2
      (by decide)⟩

/-! ## Claim C8 -/

/-- One rotation step on a hydrated cache. -/
lemma logAndRotate_cached (st : LSState ε) (c : List ε) (e : ε)
    (h : st.logCache = some c) :
    logAndRotate st e =
      ⟨some (.entries ((if LOG_ENTRY_COUNT ≤ c.length then c.tail else c)
          ++ [e])),
        some ((if LOG_ENTRY_COUNT ≤ c.length then c.tail else c) ++ [e])⟩ := by
  simp [logAndRotate, h]

/-- After `n + 1` calls from empty storage, cache and stored blob both hold
exactly the most recent `min (n+1) 200` entries, oldest first. -/
lemma runCalls_spec (f : Nat → ε) :
    ∀ n : Nat, (runCalls f (n + 1)).logCache = some (bufferAfter f (n + 1)) ∧
      (runCalls f (n + 1)).stored =
        some (.entries (bufferAfter f (n + 1))) := by
  intro n
  induction n with
  | zero =>
      constructor <;>
        simp [runCalls, logAndRotate, bufferAfter, LOG_ENTRY_COUNT,
          List.range']
  | succ m ih =>
      obtain ⟨ih1, _⟩ := ih
      have hlen : (bufferAfter f (m + 1)).length = min (m + 1) 200 := by
        simp [bufferAfter]
      have hrot := logAndRotate_cached (runCalls f (m + 1))
        (bufferAfter f (m + 1)) (f (m + 2)) ih1
      have hkey : (if LOG_ENTRY_COUNT ≤ (bufferAfter f (m + 1)).length
          then (bufferAfter f (m + 1)).tail else bufferAfter f (m + 1))
          ++ [f (m + 2)] = bufferAfter f (m + 2) := by
        by_cases hm : m + 1 < 200
        · rw [if_neg (by rw [hlen]; simp only [LOG_ENTRY_COUNT]; omega)]
          unfold bufferAfter
          have hmin : min (m + 1) 200 = m + 1 := by omega
          have hmin2 : min (m + 2) 200 = m + 2 := by omega
          rw [hmin, hmin2]
          have h1 : m + 1 + 1 - (m + 1) = 1 := by omega
          have h2 : m + 2 + 1 - (m + 2) = 1 := by omega
          rw [h1, h2]
          show (List.range' 1 (m + 1)).map f ++ [f (m + 2)] =
            (List.range' 1 (m + 1 + 1)).map f
          have hR : (List.range' 1 (m + 1 + 1)).map f =
              (List.range' 1 (m + 1)).map f ++ [f (m + 2)] := by
            rw [List.range'_1_concat, List.map_append,
              show 1 + (m + 1) = m + 2 from by omega]
            rfl
          rw [hR]
        · rw [if_pos (by rw [hlen]; simp only [LOG_ENTRY_COUNT]; omega)]
          unfold bufferAfter
          have hmin : min (m + 1) 200 = 200 := by omega
          have hmin2 : min (m + 2) 200 = 200 := by omega
          rw [hmin, hmin2]
          have e1 : m + 1 + 1 - 200 = m - 198 := by omega
          have e2 : m + 2 + 1 - 200 = m - 197 := by omega
          rw [e1, e2]
          show ((List.range' (m - 198) (199 + 1)).map f).tail ++ [f (m + 2)] =
            (List.range' (m - 197) (199 + 1)).map f
          have eL : List.range' (m - 198) (199 + 1) =
              (m - 198) :: List.range' (m - 197) 199 := by
            rw [List.range'_succ, show m - 198 + 1 = m - 197 from by omega]
          have eR : List.range' (m - 197) (199 + 1) =
              List.range' (m - 197) 199 ++ [m + 2] := by
            rw [List.range'_1_concat, show m - 197 + 199 = m + 2 from by omega]
          rw [eL, eR, List.map_append, List.map_cons, List.tail_cons]
          rfl
      show (logAndRotate (runCalls f (m + 1)) (f (m + 2))).logCache = _ ∧
        (logAndRotate (runCalls f (m + 1)) (f (m + 2))).stored = _
      rw [hrot]
      exact ⟨by rw [hkey], by rw [hkey]⟩

/-- Claim C8: starting from empty storage under a single writer, after `n`
logging calls the buffer holds exactly `min n 200` entries — the most recent
`min n 200` calls in oldest-first order — so its length never exceeds the
capacity `LOG_ENTRY_COUNT = 200`, each insertion at capacity evicting the
oldest entry before appending; in particular after 350 calls exactly the
most recent 200 entries remain and the first retained entry corresponds to
call number 151. -/
theorem c8_theorem (ε : Type) (f : Nat → ε) (n : Nat) :
    ((runCalls f n).logCache =
      if n = 0 then none else some (bufferAfter f n)) ∧
    ((runCalls f n).stored =
      if n = 0 then none else some (.entries (bufferAfter f n))) ∧
    (bufferAfter f n).length = min n 200 ∧
    min n 200 ≤ LOG_ENTRY_COUNT ∧
    (runCalls f 350).logCache = some ((List.range' 151 200).map f) ∧
    ((List.range' 151 200).map f).head? = some (f 151) := by
  have h350 : bufferAfter f 350 = (List.range' 151 200).map f := by
    unfold bufferAfter
    norm_num
  refine ⟨?_, ?_, by simp [bufferAfter],
    by simp only [LOG_ENTRY_COUNT]; omega, ?_, ?_⟩
  · cases n with
    | zero => rfl
    | succ m => simpa using (runCalls_spec f m).1
  · cases n with
    | zero => rfl
    | succ m => simpa using (runCalls_spec f m).2
  · have h := (runCalls_spec f 349).1
    rw [show (349 : Nat) + 1 = 350 by norm_num, h350] at h
    exact h
  · rw [List.head?_map, show (List.range' 151 200).head? = some 151 by decide]
    rfl

/-! ## Claim C10 -/

/-- Only the first `'*'` of the selector is translated by
`arg.replace('*', '.*')`; every later `'*'` is kept verbatim. -/
lemma replaceFirstStarL_append (pre post : List Char) (h : '*' ∉ pre) :
    replaceFirstStarL (pre ++ '*' :: post) = pre ++ '.' :: '*' :: post := by
  induction pre with
  | nil => simp [replaceFirstStarL]
  | cons c cs ih =>
      simp only [List.mem_cons, not_or] at h
      obtain ⟨h1, h2⟩ := h
      have hc : ¬ c = '*' := fun hcc => h1 hcc.symm
      simp only [List.cons_append, replaceFirstStarL, if_neg hc,
        List.append_eq]
      rw [ih h2]

/-- Claim C10, counterexample: the claim's example concludes that the
translated pattern `^a.*b*$` does not match the logger name `"aXbY"`, but it
does — `.*` consumes `"XbY"` and the trailing `b*` quantifier matches the
empty string — and `setLogLevel` accordingly reports one successful match. -/
theorem c10_counterexample :
    replaceFirstStar "a*b*" = "a.*b*" ∧
    regexTest "a.*b*" "aXbY" = true ∧
    (setLogLevel stC10 (.byName "a*b*") (.num 3)).2 =
      msgSuccessName "a.*b*" 3 ["aXbY"] := by decide

/-- Claim C10 as amended: for every selector containing two or more `'*'`
characters only the first occurrence is translated to `'.*'`; every later
`'*'` is kept verbatim in the anchored pattern and acts as a regex
quantifier on the preceding character (so `"a*b*"` becomes `^a.*b*$`, which
consumes runs of `'b'` and also matches names with no `'b'` at all — such as
`"aX"`, which the two-wildcard reading `^a.*b.*$` rejects — and in
particular it DOES match `"aXbY"`). -/
theorem c10_theorem (pre post : List Char) (h : '*' ∉ pre) :
    replaceFirstStarL (pre ++ '*' :: post) = pre ++ '.' :: '*' :: post ∧
    replaceFirstStar "a*b*" = "a.*b*" ∧
    regexTest "a.*b*" "aXbbb" = true ∧
    regexTest "a.*b*" "aX" = true ∧
    regexTest "a.*b.*" "aX" = false ∧
    regexTest "a.*b*" "aXbY" = true ∧
    (setLogLevel stC10 (.byName "a*b*") (.num 3)).2 =
      msgSuccessName "a.*b*" 3 ["aXbY"] :=
  ⟨replaceFirstStarL_append pre post h, by decide, by decide, by decide,
    by decide, by decide, by decide⟩

/-- Claim C10, witness: the translation statement applied to the selector
`"a*b*"` split as `"a" ++ "*" ++ "b*"`. -/
theorem c10_witness :
    ('*' ∉ preW) ∧
    replaceFirstStarL (preW ++ '*' :: postW) = preW ++ '.' :: '*' :: postW :=
  ⟨by decide, (c10_theorem preW postW (by decide)).1⟩

/-! ## Claims C4 and C6: `clear` and the reconfiguration invariant -/

/-- The observable effect of `clear` on every factory field: level state is
reset and persisted BEFORE the appender map is emptied, so the persisted
record carries the pre-clear appender keys, and the cached loggers (reset
via their `level`/`rootLevel` setters only) keep their old appender lists. -/
lemma clear_fields (st : FactoryState α) :
    (clear st).1.storedLevels = [("__root", DEFAULT_ROOT_LEVEL)] ∧
    (clear st).1.theRootLevel = DEFAULT_ROOT_LEVEL ∧
    (clear st).1.cachedLoggers =
      st.cachedLoggers.map (fun p =>
        (p.1, (p.2.setLevel none).setRootLevel DEFAULT_ROOT_LEVEL)) ∧
    (clear st).1.appenders = [] ∧
    (st.hasStorage = true →
      (clear st).1.storageItem =
        some (.json (some [("__root", "INFO")])
          (some (st.appenders.map Prod.fst)))) := by
  have hname : levelName DEFAULT_ROOT_LEVEL = "INFO" := rfl
  refine ⟨?_, ?_, ?_, ?_, ?_⟩
  · simp [clear, initLevels]
  · simp [clear, initLevels]
  · simp [clear, initLevels]
  · simp [clear]
  · intro h
    simp [clear, storeConfig, initLevels, h, hname]

/-- A cache hit: `getLogger` with a non-empty cached name returns the cached
instance and leaves the factory untouched. -/
lemma getLogger_hit (st : FactoryState α) (nm : String) (l : Logger α)
    (hnm : nm ≠ "") (h : objGet st.cachedLoggers nm = some l) :
    getLogger st nm = (st, l) := by
  unfold getLogger
  rw [if_neg hnm]
  simp only [h]

/-- Claim C6, counterexample: `clear` calls `storeConfig()` BEFORE emptying
the appender map, so on a factory whose active appender is `console` the
persisted record written by `clear` lists `["console"]`, not the empty
appender list the claim requires. -/
theorem c6_counterexample :
    (clear stBase).1.storageItem =
      some (.json (some [("__root", "INFO")]) (some ["console"])) ∧
    (["console"] : List String) ≠ [] := by decide

/-- Claim C6 as amended: after `clear()` the stored overrides are exactly
`__root = DEFAULT_ROOT_LEVEL`, every cached logger's local override is
absent (with root and effective level `DEFAULT_ROOT_LEVEL`), the active
appender set is empty, logger identities are retained (a subsequent
`getLogger` with the same name is a cache hit returning the same instance),
and the state was persisted BEFORE the appender reset: the persisted
record's levels map contains only `__root`, but its appenders list equals
the appender keys that were active before the clear (not the empty list). -/
theorem c6_theorem (α : Type) (st : FactoryState α) :
    (clear st).1.storedLevels = [("__root", DEFAULT_ROOT_LEVEL)] ∧
    (clear st).1.theRootLevel = DEFAULT_ROOT_LEVEL ∧
    (clear st).1.cachedLoggers =
      st.cachedLoggers.map (fun p =>
        (p.1, (p.2.setLevel none).setRootLevel DEFAULT_ROOT_LEVEL)) ∧
    (∀ p ∈ (clear st).1.cachedLoggers,
      p.2.level = none ∧ p.2.rootLevel = DEFAULT_ROOT_LEVEL ∧
        p.2.effectiveLevel = DEFAULT_ROOT_LEVEL) ∧
    (clear st).1.appenders = [] ∧
    (st.hasStorage = true →
      (clear st).1.storageItem =
        some (.json (some [("__root", "INFO")])
          (some (st.appenders.map Prod.fst)))) ∧
    (∀ nm l, nm ≠ "" → objGet (clear st).1.cachedLoggers nm = some l →
      getLogger (clear st).1 nm = ((clear st).1, l)) := by
  obtain ⟨h1, h2, h3, h4, h5⟩ := clear_fields st
  refine ⟨h1, h2, h3, ?_, h4, h5, ?_⟩
  · intro p hp
    rw [h3] at hp
    obtain ⟨q, _, rfl⟩ := List.mem_map.mp hp
    refine ⟨rfl, rfl, ?_⟩
    show ((q.2.setLevel none).setRootLevel DEFAULT_ROOT_LEVEL).effectiveLevel
      = DEFAULT_ROOT_LEVEL
    rw [setRootLevel_effectiveLevel, setLevel_level]
  · intro nm l hnm h
    exact getLogger_hit _ nm l hnm h

/-- Claim C6, witness: on `stBase` (storage on, console appender active,
logger `"t"` cached), after `clear` the persisted appender list is the
pre-clear `["console"]` and `getLogger "t"` is a cache hit. -/
theorem c6_witness :
    (clear stBase).1.storageItem =
      some (.json (some [("__root", "INFO")])
        (some (stBase.appenders.map Prod.fst))) ∧
    getLogger (clear stBase).1 "t" = ((clear stBase).1,
      { name := "t", rootLevel := 3, level := none, effectiveLevel := 3,
        appenders := [0] }) :=
  ⟨(c6_theorem Nat stBase).2.2.2.2.2.1 rfl,
    (c6_theorem Nat stBase).2.2.2.2.2.2 "t"
      { name := "t", rootLevel := 3, level := none, effectiveLevel := 3,
        appenders := [0] } (by decide) (by decide)⟩

/-- Each matched logger gets its level set; unmatched loggers are returned
untouched, so every swept logger differs from a cached one at most in its
`level`/`effectiveLevel`. -/
lemma sweepLoggers_mem (test : Nat → String → Bool) (lv : Nat) :
    ∀ (i : Nat) (ls : List (String × Logger α)) (p : String × Logger α),
      p ∈ sweepLoggers test lv i ls →
      ∃ q ∈ ls, p.2 = q.2 ∨ p.2 = q.2.setLevel (some lv) := by
  intro i ls
  induction ls generalizing i with
  | nil => intro p hp; cases hp
  | cons q qs ih =>
      intro p hp
      rw [sweepLoggers] at hp
      rcases List.mem_cons.mp hp with h | h
      · by_cases ht : test i q.1
        · rw [if_pos ht] at h
          exact ⟨q, List.mem_cons_self q qs, Or.inr (by rw [h])⟩
        · rw [if_neg ht] at h
          exact ⟨q, List.mem_cons_self q qs, Or.inl (by rw [h])⟩
      · obtain ⟨r, hr, hor⟩ := ih (i + 1) p h
        exact ⟨r, List.mem_cons_of_mem _ hr, hor⟩

/-- The level sweep plus persist of `setLogLevel` preserves the invariant,
for any matching predicate. -/
lemma inSync_sweep (st : FactoryState α) (tst : Nat → String → Bool) (L : Nat)
    (h : inSync st) :
    inSync (storeConfig { st with
      cachedLoggers := sweepLoggers tst L 0 st.cachedLoggers,
      storedLevels := sweepStored tst L 0 st.cachedLoggers st.storedLevels }) := by
  intro p hp
  rw [storeConfig_cachedLoggers] at hp
  obtain ⟨q, hq, hor⟩ := sweepLoggers_mem tst L 0 st.cachedLoggers p hp
  obtain ⟨hr, ha⟩ := h q hq
  rw [storeConfig_theRootLevel, storeConfig_appenders]
  constructor
  · show p.2.rootLevel = st.theRootLevel
    rcases hor with h' | h' <;> rw [h'] <;> simp [hr]
  · show p.2.appenders = st.appenders.map Prod.snd
    rcases hor with h' | h' <;> rw [h'] <;> simp [ha]

/-- `setLogLevel` preserves the reconfiguration invariant. -/
lemma inSync_setLogLevel (st : FactoryState α) (sel : Selector)
    (lv : LevelInput) (h : inSync st) : inSync (setLogLevel st sel lv).1 := by
  cases sel with
  | byName s0 =>
      cases hv : getValidLevel lv with
      | none =>
          have hres : setLogLevel st (.byName s0) lv = (st, "") := by
            unfold setLogLevel
            rw [hv]
          rw [hres]
          exact h
      | some L =>
          have hres : (setLogLevel st (.byName s0) lv).1 =
              storeConfig { st with
                cachedLoggers := sweepLoggers
                  (fun _ nm => regexTest (replaceFirstStar s0) nm) L 0
                  st.cachedLoggers,
                storedLevels := sweepStored
                  (fun _ nm => regexTest (replaceFirstStar s0) nm) L 0
                  st.cachedLoggers st.storedLevels } := by
            unfold setLogLevel
            rw [hv]
          rw [hres]
          exact inSync_sweep st _ L h
  | byIndex n =>
      cases hv : getValidLevel lv with
      | none =>
          have hres : setLogLevel st (.byIndex n) lv = (st, "") := by
            unfold setLogLevel
            rw [hv]
          rw [hres]
          exact h
      | some L =>
          have hres : (setLogLevel st (.byIndex n) lv).1 =
              storeConfig { st with
                cachedLoggers := sweepLoggers
                  (fun i _ => decide ((i : Int) = n)) L 0 st.cachedLoggers,
                storedLevels := sweepStored
                  (fun i _ => decide ((i : Int) = n)) L 0 st.cachedLoggers
                  st.storedLevels } := by
            unfold setLogLevel
            rw [hv]
          rw [hres]
          exact inSync_sweep st _ L h

/-- `setLogAppenders` preserves the reconfiguration invariant (and, on
success, re-establishes its appender half by construction). -/
lemma inSync_setLogAppenders (st : FactoryState α) (keys : List String)
    (h : inSync st) : inSync (setLogAppenders st keys).1 := by
  by_cases he : (resolveAppenders st keys).isEmpty
  · have hres : (setLogAppenders st keys).1 = st := by
      unfold setLogAppenders
      rw [if_pos he]
    rw [hres]
    exact h
  · have hres : (setLogAppenders st keys).1 = storeConfig { st with
        appenders := resolveAppenders st keys,
        cachedLoggers := st.cachedLoggers.map (fun p =>
          (p.1,
            p.2.setAppenders ((resolveAppenders st keys).map Prod.snd))) } := by
      unfold setLogAppenders
      rw [if_neg he]
    rw [hres]
    intro p hp
    rw [storeConfig_cachedLoggers] at hp
    obtain ⟨q, hq, rfl⟩ := List.mem_map.mp hp
    obtain ⟨hr, _⟩ := h q hq
    rw [storeConfig_theRootLevel, storeConfig_appenders]
    constructor
    · show (q.2.setAppenders _).rootLevel = st.theRootLevel
      rw [setAppenders_rootLevel, hr]
    · show (q.2.setAppenders _).appenders =
        (resolveAppenders st keys).map Prod.snd
      rw [setAppenders_appenders]

/-- The root-level setter preserves the reconfiguration invariant (and
re-establishes its root half by construction). -/
lemma inSync_setRootLevel (st : FactoryState α) (lv : LevelInput)
    (h : inSync st) : inSync (setRootLevel st lv) := by
  cases hv : getValidLevel lv with
  | none =>
      have hres : setRootLevel st lv = st := by
        unfold setRootLevel
        rw [hv]
      rw [hres]
      exact h
  | some L =>
      have hres : setRootLevel st lv = storeConfig { st with
          theRootLevel := L,
          cachedLoggers := st.cachedLoggers.map (fun p =>
            (p.1, p.2.setRootLevel L)),
          storedLevels := objSet st.storedLevels "__root" L } := by
        unfold setRootLevel
        rw [hv]
      rw [hres]
      intro p hp
      rw [storeConfig_cachedLoggers] at hp
      obtain ⟨q, hq, rfl⟩ := List.mem_map.mp hp
      obtain ⟨_, ha⟩ := h q hq
      rw [storeConfig_theRootLevel, storeConfig_appenders]
      constructor
      · show (q.2.setRootLevel L).rootLevel = L
        rw [setRootLevel_rootLevel]
      · show (q.2.setRootLevel L).appenders = st.appenders.map Prod.snd
        rw [setRootLevel_appenders, ha]

/-- The final logger sweep of `restoreConfig` establishes the invariant
outright. -/
lemma inSync_refreshLoggers (st : FactoryState α) :
    inSync (refreshLoggers st) := by
  intro p hp
  obtain ⟨q, _, rfl⟩ := List.mem_map.mp hp
  exact ⟨rfl, rfl⟩

/-- `restoreConfig` unconditionally establishes the invariant. -/
lemma inSync_restoreConfig (st : FactoryState α) :
    inSync (restoreConfig st) := by
  unfold restoreConfig
  exact inSync_refreshLoggers _

/-- Claim C4, counterexample: on `stBase` the invariant holds, yet
immediately after the reconfiguration call `clear()` returns it is broken —
the factory's appender map is empty while the cached logger `"t"` still
holds the old `[console]` appender list. -/
theorem c4_counterexample :
    inSync stBase ∧ ¬ inSync (clear stBase).1 := by decide

/-- Claim C4 as amended: immediately after `setLogLevel`, `setLogAppenders`
or a root-level assignment returns, every cached logger agrees with the
factory's root level and appender map PROVIDED it did before the call, and
`restoreConfig` establishes that agreement unconditionally; but after
`clear()` returns the factory's appender map is empty while every cached
logger retains its pre-clear appender list (its root level is still synced),
so a cached logger observes stale appender state whenever the pre-clear
list was non-empty. -/
theorem c4_theorem (α : Type) (st : FactoryState α) (sel : Selector)
    (lv rlv : LevelInput) (keys : List String) :
    (inSync st → inSync (setLogLevel st sel lv).1) ∧
    (inSync st → inSync (setLogAppenders st keys).1) ∧
    (inSync st → inSync (setRootLevel st rlv)) ∧
    inSync (restoreConfig st) ∧
    (clear st).1.appenders = [] ∧
    (clear st).1.cachedLoggers =
      st.cachedLoggers.map (fun p =>
        (p.1, (p.2.setLevel none).setRootLevel DEFAULT_ROOT_LEVEL)) ∧
    (∀ p ∈ (clear st).1.cachedLoggers,
      p.2.rootLevel = (clear st).1.theRootLevel) ∧
    (∀ p ∈ st.cachedLoggers,
      ((p.2.setLevel none).setRootLevel DEFAULT_ROOT_LEVEL).appenders =
        p.2.appenders) := by
  obtain ⟨_, h2, h3, h4, _⟩ := clear_fields st
  refine ⟨inSync_setLogLevel st sel lv, inSync_setLogAppenders st keys,
    inSync_setRootLevel st rlv, inSync_restoreConfig st, h4, h3, ?_, ?_⟩
  · intro p hp
    rw [h3] at hp
    obtain ⟨q, _, rfl⟩ := List.mem_map.mp hp
    rw [h2]
    rfl
  · intro p _
    rw [setRootLevel_appenders, setLevel_appenders]

/-- Claim C4, witness: the preservation statements applied to `stBase`,
whose loggers are in sync, for one call of each kind. -/
theorem c4_witness :
    inSync stBase ∧
    inSync (setLogLevel stBase (.byIndex 0) (.num 2)).1 ∧
    inSync (setLogAppenders stBase ["console"]).1 ∧
    inSync (setRootLevel stBase (.num 5)) ∧
    inSync (restoreConfig stBase) :=
  ⟨by decide,
    (c4_theorem Nat stBase (.byIndex 0) (.num 2) (.num 5) ["console"]).1
      (by decide),
    (c4_theorem Nat stBase (.byIndex 0) (.num 2) (.num 5) ["console"]).2.1
      (by decide),
    (c4_theorem Nat stBase (.byIndex 0) (.num 2) (.num 5) ["console"]).2.2.1
      (by decide),
    (c4_theorem Nat stBase (.byIndex 0) (.num 2) (.num 5) ["console"]).2.2.2.1⟩

/-! ## Claim C7 -/

/-- Positional characterization of the logger sweep: position `j` is mutated
exactly when the predicate accepts the running index `i + j` and that
logger's name. -/
lemma sweepLoggers_get? (test : Nat → String → Bool) (lv : Nat) :
    ∀ (i : Nat) (ls : List (String × Logger α)) (j : Nat),
      (sweepLoggers test lv i ls).get? j =
        (ls.get? j).map (fun p =>
          if test (i + j) p.1 then (p.1, p.2.setLevel (some lv)) else p) := by
  intro i ls
  induction ls generalizing i with
  | nil => intro j; simp [sweepLoggers]
  | cons q qs ih =>
      intro j
      cases j with
      | zero => simp [sweepLoggers]
      | succ k =>
          have := ih (i + 1) k
          simp only [sweepLoggers, List.get?_cons_succ, this,
            Nat.add_succ, Nat.succ_add]

/-- When nothing matches, the logger sweep is the identity. -/
lemma sweepLoggers_id (test : Nat → String → Bool) (lv : Nat) :
    ∀ (i : Nat) (ls : List (String × Logger α)),
      (∀ j p, ls.get? j = some p → test (i + j) p.1 = false) →
      sweepLoggers test lv i ls = ls := by
  intro i ls
  induction ls generalizing i with
  | nil => intro _; rfl
  | cons q qs ih =>
      intro h
      have h0 : test i q.1 = false := by
        have := h 0 q rfl
        rwa [Nat.add_zero] at this
      rw [sweepLoggers, if_neg (by rw [h0]; exact Bool.false_ne_true),
        ih (i + 1) ?_]
      intro j p hj
      have := h (j + 1) p (by rwa [List.get?_cons_succ])
      rwa [Nat.add_succ, ← Nat.succ_add] at this

/-- When nothing matches, the stored-overrides sweep is the identity. -/
lemma sweepStored_id (test : Nat → String → Bool) (lv : Nat) :
    ∀ (i : Nat) (ls : List (String × Logger α)) (m : List (String × Nat)),
      (∀ j p, ls.get? j = some p → test (i + j) p.1 = false) →
      sweepStored test lv i ls m = m := by
  intro i ls
  induction ls generalizing i with
  | nil => intro m _; rfl
  | cons q qs ih =>
      intro m h
      have h0 : test i q.1 = false := by
        have := h 0 q rfl
        rwa [Nat.add_zero] at this
      rw [sweepStored, if_neg (by rw [h0]; exact Bool.false_ne_true),
        ih (i + 1) m ?_]
      intro j p hj
      have := h (j + 1) p (by rwa [List.get?_cons_succ])
      rwa [Nat.add_succ, ← Nat.succ_add] at this

/-- When nothing matches, the match list is empty. -/
lemma sweepMatches_nil (test : Nat → String → Bool) :
    ∀ (i : Nat) (ls : List (String × Logger α)),
      (∀ j p, ls.get? j = some p → test (i + j) p.1 = false) →
      sweepMatches test i ls = [] := by
  intro i ls
  induction ls generalizing i with
  | nil => intro _; rfl
  | cons q qs ih =>
      intro h
      have h0 : test i q.1 = false := by
        have := h 0 q rfl
        rwa [Nat.add_zero] at this
      rw [sweepMatches, if_neg (by rw [h0]; exact Bool.false_ne_true),
        ih (i + 1) ?_, List.nil_append]
      intro j p hj
      have := h (j + 1) p (by rwa [List.get?_cons_succ])
      rwa [Nat.add_succ, ← Nat.succ_add] at this

/-- Claim C7: `setLogLevel` with a level that fails normalization mutates
nothing and returns `''`; a numeric selector mutates exactly the logger
whose ordinal position in cache iteration order equals the selector — every
other position is returned untouched; and with no match (numeric or
name-pattern) all factory and logger state is left unchanged and the
mode-specific no-match message is returned. (The no-match call still runs
`storeConfig()`, rewriting the persisted record from the unchanged state;
the in-memory factory and logger state is untouched.) -/
theorem c7_theorem (α : Type) (st : FactoryState α) (sel : Selector)
    (lv : LevelInput) (n : Int) (L : Nat) (s0 : String) :
    (getValidLevel lv = none → setLogLevel st sel lv = (st, "")) ∧
    (getValidLevel lv = some L →
      (∀ j : Nat,
        (setLogLevel st (.byIndex n) lv).1.cachedLoggers.get? j =
          (st.cachedLoggers.get? j).map (fun p =>
            if (j : Int) = n then (p.1, p.2.setLevel (some L)) else p)) ∧
      ((∀ j : Nat, (j : Int) = n → st.cachedLoggers.length ≤ j) →
        unchangedCore (setLogLevel st (.byIndex n) lv).1 st ∧
        (setLogLevel st (.byIndex n) lv).2 = msgNoMatchIndex n) ∧
      ((∀ nm ∈ st.cachedLoggers.map Prod.fst,
          regexTest (replaceFirstStar s0) nm = false) →
        unchangedCore (setLogLevel st (.byName s0) lv).1 st ∧
        (setLogLevel st (.byName s0) lv).2 =
          msgNoMatchName (replaceFirstStar s0))) := by
  constructor
  · intro h
    unfold setLogLevel
    rw [h]
  · intro hL
    have hresIdx : setLogLevel st (.byIndex n) lv =
        (storeConfig { st with
          cachedLoggers := sweepLoggers
            (fun i _ => decide ((i : Int) = n)) L 0 st.cachedLoggers,
          storedLevels := sweepStored
            (fun i _ => decide ((i : Int) = n)) L 0 st.cachedLoggers
            st.storedLevels },
          if sweepMatches (fun i _ => decide ((i : Int) = n)) 0
              st.cachedLoggers = [] then
            msgNoMatchIndex n
          else
            msgSuccessIndex n L (sweepMatches
              (fun i _ => decide ((i : Int) = n)) 0 st.cachedLoggers)) := by
      unfold setLogLevel
      rw [hL]
    have hresName : setLogLevel st (.byName s0) lv =
        (storeConfig { st with
          cachedLoggers := sweepLoggers
            (fun _ nm => regexTest (replaceFirstStar s0) nm) L 0
            st.cachedLoggers,
          storedLevels := sweepStored
            (fun _ nm => regexTest (replaceFirstStar s0) nm) L 0
            st.cachedLoggers st.storedLevels },
          if sweepMatches (fun _ nm => regexTest (replaceFirstStar s0) nm) 0
              st.cachedLoggers = [] then
            msgNoMatchName (replaceFirstStar s0)
          else
            msgSuccessName (replaceFirstStar s0) L (sweepMatches
              (fun _ nm => regexTest (replaceFirstStar s0) nm) 0
              st.cachedLoggers)) := by
      unfold setLogLevel
      rw [hL]
    refine ⟨?_, ?_, ?_⟩
    · intro j
      rw [hresIdx]
      show (storeConfig _).cachedLoggers.get? j = _
      rw [storeConfig_cachedLoggers, sweepLoggers_get?]
      cases st.cachedLoggers.get? j with
      | none => rfl
      | some p => by_cases hj : (j : Int) = n <;> simp [hj]
    · intro hno
      have hfalse : ∀ j p, st.cachedLoggers.get? j = some p →
          (fun (i : Nat) (_ : String) => decide ((i : Int) = n)) (0 + j) p.1
            = false := by
        intro j p hj
        rw [Nat.zero_add, decide_eq_false_iff_not]
        intro hjn
        have hlen := hno j hjn
        rw [List.get?_eq_none.mpr hlen] at hj
        cases hj
      have hm := sweepMatches_nil
        (fun (i : Nat) (_ : String) => decide ((i : Int) = n)) 0
        st.cachedLoggers hfalse
      have hl := sweepLoggers_id
        (fun (i : Nat) (_ : String) => decide ((i : Int) = n)) L 0
        st.cachedLoggers hfalse
      have hs := sweepStored_id
        (fun (i : Nat) (_ : String) => decide ((i : Int) = n)) L 0
        st.cachedLoggers st.storedLevels hfalse
      rw [hresIdx]
      constructor
      · refine ⟨?_, ?_, ?_, ?_, ?_⟩ <;>
          simp [storeConfig_storedLevels, storeConfig_cachedLoggers,
            storeConfig_theRootLevel, storeConfig_appenders,
            storeConfig_registeredAppenders, hl, hs]
      · show (if sweepMatches _ 0 st.cachedLoggers = [] then _ else _) = _
        rw [hm, if_pos rfl]
    · intro hno
      have hfalse : ∀ j p, st.cachedLoggers.get? j = some p →
          (fun (_ : Nat) (nm : String) =>
            regexTest (replaceFirstStar s0) nm) (0 + j) p.1 = false := by
        intro j p hj
        exact hno p.1 (List.mem_map_of_mem Prod.fst (List.get?_mem hj))
      have hm := sweepMatches_nil
        (fun (_ : Nat) (nm : String) => regexTest (replaceFirstStar s0) nm) 0
        st.cachedLoggers hfalse
      have hl := sweepLoggers_id
        (fun (_ : Nat) (nm : String) => regexTest (replaceFirstStar s0) nm) L 0
        st.cachedLoggers hfalse
      have hs := sweepStored_id
        (fun (_ : Nat) (nm : String) => regexTest (replaceFirstStar s0) nm) L 0
        st.cachedLoggers st.storedLevels hfalse
      rw [hresName]
      constructor
      · refine ⟨?_, ?_, ?_, ?_, ?_⟩ <;>
          simp [storeConfig_storedLevels, storeConfig_cachedLoggers,
            storeConfig_theRootLevel, storeConfig_appenders,
            storeConfig_registeredAppenders, hl, hs]
      · show (if sweepMatches _ 0 st.cachedLoggers = [] then _ else _) = _
        rw [hm, if_pos rfl]

/-- Claim C7, witness: on `stBase` (one cached logger), an invalid level is
a silent no-op and index selector 3 matches nothing, leaving the in-memory
state unchanged and returning the index-mode no-match message. -/
theorem c7_witness :
    setLogLevel stBase (.byIndex 5) (.num 100) = (stBase, "") ∧
    unchangedCore (setLogLevel stBase (.byIndex 3) (.str "WARN")).1 stBase ∧
    (setLogLevel stBase (.byIndex 3) (.str "WARN")).2 = msgNoMatchIndex 3 :=
  ⟨(c7_theorem Nat stBase (.byIndex 5) (.num 100) 5 0 "x").1 (by decide),
    (((c7_theorem Nat stBase (.byIndex 3) (.str "WARN") 3 2 "x").2
        (by decide)).2.1 (by
          intro j hj
          have : j = 3 := by omega
          subst this
          decide)).1,
    (((c7_theorem Nat stBase (.byIndex 3) (.str "WARN") 3 2 "x").2
        (by decide)).2.1 (by
          intro j hj
          have : j = 3 := by omega
          subst this
          decide)).2⟩

/-! ## Claim C3 -/

/-- Assigning a fresh key appends it. -/
lemma objSet_append (m : List (String × β)) (k : String) (v : β)
    (h : ∀ q ∈ m, q.1 ≠ k) : objSet m k v = m ++ [(k, v)] := by
  unfold objSet
  rw [if_neg]
  simp only [List.any_eq_true, decide_eq_true_eq, not_exists, not_and]
  exact h

/-- `keptStep` records exactly what `keptOne` reports. -/
lemma keptStep_eq (memo : List (String × Nat)) (p : String × String) :
    keptStep memo p =
      match keptOne p with
      | some kv => objSet memo kv.1 kv.2
      | none => memo := by
  unfold keptStep keptOne
  cases getValidLevel (.str p.2) with
  | none => rfl
  | some v =>
      by_cases hv : v = 0 <;> simp [hv]

/-- With pairwise-distinct entry keys that avoid the accumulator, the
`levels` reduce appends exactly the entries `keptOne` keeps. -/
lemma keptLevels_aux :
    ∀ (entries : List (String × String)) (acc : List (String × Nat)),
      (∀ p ∈ entries, ∀ q ∈ acc, q.1 ≠ p.1) →
      (entries.map Prod.fst).Nodup →
      entries.foldl keptStep acc = acc ++ entries.filterMap keptOne := by
  intro entries
  induction entries with
  | nil => intro acc _ _; simp
  | cons p ps ih =>
      intro acc hdisj hnd
      rw [List.foldl_cons, List.filterMap_cons, keptStep_eq]
      simp only [List.map_cons, List.nodup_cons] at hnd
      obtain ⟨hp1, hnd'⟩ := hnd
      cases hko : keptOne p with
      | none =>
          exact ih acc
            (fun r hr q hq => hdisj r (List.mem_cons_of_mem p hr) q hq) hnd'
      | some kv =>
          have hkv1 : kv.1 = p.1 := by
            unfold keptOne at hko
            cases hg : getValidLevel (.str p.2) with
            | none => rw [hg] at hko; cases hko
            | some v =>
                rw [hg] at hko
                by_cases hv : v = 0
                · simp [hv] at hko
                · simp [hv] at hko
                  rw [← hko]
          show List.foldl keptStep (objSet acc kv.1 kv.2) ps =
            acc ++ (kv :: List.filterMap keptOne ps)
          rw [objSet_append acc kv.1 kv.2
            (fun q hq => hkv1 ▸ hdisj p (List.mem_cons_self p ps) q hq)]
          have hdisj' : ∀ r ∈ ps, ∀ q ∈ acc ++ [(kv.1, kv.2)], q.1 ≠ r.1 := by
            intro r hr q hq
            rcases List.mem_append.mp hq with hq | hq
            · exact hdisj r (List.mem_cons_of_mem p hr) q hq
            · have hq' : q = (kv.1, kv.2) := List.mem_singleton.mp hq
              rw [hq', hkv1]
              intro heq
              apply hp1
              have hr1 : r.1 ∈ List.map Prod.fst ps :=
                List.mem_map_of_mem Prod.fst hr
              rwa [← heq] at hr1
          rw [ih (acc ++ [(kv.1, kv.2)]) hdisj' hnd', List.append_assoc]
          rfl

/-- Under distinct keys the kept levels are the `filterMap` of `keptOne`. -/
lemma keptLevels_eq (entries : List (String × String))
    (hnd : (entries.map Prod.fst).Nodup) :
    keptLevels entries = entries.filterMap keptOne := by
  have := keptLevels_aux entries [] (by simp) hnd
  simpa [keptLevels] using this

/-- `restoreConfig` on a state whose persisted item parses with both fields
present: the adoption decision spelled out. -/
lemma restoreConfig_json (st : FactoryState α)
    (entries : List (String × String)) (keys : List String)
    (hs : st.hasStorage = true)
    (hit : st.storageItem = some (.json (some entries) (some keys))) :
    restoreConfig st = refreshLoggers (
      match restoredRoot entries with
      | some rv =>
          if rv = 0 then initLevels st
          else if keptLevels entries = [] then initLevels st
          else if (resolveAppenders st keys).isEmpty then initLevels st
          else { st with storedLevels := keptLevels entries,
                         theRootLevel := rv,
                         appenders := resolveAppenders st keys }
      | none => initLevels st) := by
  obtain ⟨sl, cl, rl, ap, ra, hsg, si⟩ := st
  simp only at hs hit
  subst hs
  subst hit
  rfl

/-- Claim C3 as amended: with a parsed record present, `restoreConfig`
adopts levels/root/appenders if and only if all three survive the source's
truthiness tests — the levels map is non-empty after dropping every entry
that fails to normalize OR normalizes to `OFF`, the `__root` entry is a
non-empty string normalizing to a non-`OFF` level, and at least one appender
key resolves. On failure it resets the stored overrides and root to the
hard-coded defaults but leaves the active appenders unchanged (not "no
appenders"). When adopted, exactly the entries normalizing to a valid
non-`OFF` level survive; an entry whose string normalizes to `OFF` is
dropped even though it normalized successfully. -/
theorem c3_theorem (α : Type) (st0 : FactoryState α)
    (entries : List (String × String)) (keys : List String)
    (hs : st0.hasStorage = true)
    (hit : st0.storageItem = some (.json (some entries) (some keys))) :
    (∀ rv, restoredRoot entries = some rv → rv ≠ 0 →
      keptLevels entries ≠ [] → resolveAppenders st0 keys ≠ [] →
      (restoreConfig st0).storedLevels = keptLevels entries ∧
      (restoreConfig st0).theRootLevel = rv ∧
      (restoreConfig st0).appenders = resolveAppenders st0 keys) ∧
    ((restoredRoot entries = none ∨ restoredRoot entries = some 0 ∨
        keptLevels entries = [] ∨ resolveAppenders st0 keys = []) →
      (restoreConfig st0).storedLevels = [("__root", DEFAULT_ROOT_LEVEL)] ∧
      (restoreConfig st0).theRootLevel = DEFAULT_ROOT_LEVEL ∧
      (restoreConfig st0).appenders = st0.appenders) ∧
    ((entries.map Prod.fst).Nodup →
      ∀ nm v, ((nm, v) ∈ keptLevels entries ↔
        ∃ s, (nm, s) ∈ entries ∧ getValidLevel (.str s) = some v ∧ v ≠ 0)) := by
  have hbody := restoreConfig_json st0 entries keys hs hit
  have hsome : ∀ rv, restoredRoot entries = some rv →
      restoreConfig st0 = refreshLoggers (
        if rv = 0 then initLevels st0
        else if keptLevels entries = [] then initLevels st0
        else if (resolveAppenders st0 keys).isEmpty then initLevels st0
        else { st0 with storedLevels := keptLevels entries,
                        theRootLevel := rv,
                        appenders := resolveAppenders st0 keys }) := by
    intro rv hroot
    rw [hbody, hroot]
  have hnone : restoredRoot entries = none →
      restoreConfig st0 = refreshLoggers (initLevels st0) := by
    intro hroot
    rw [hbody, hroot]
  refine ⟨?_, ?_, ?_⟩
  · intro rv hroot hrv hkept haps
    have hie : ¬ (resolveAppenders st0 keys).isEmpty = true :=
      fun hh => haps (List.isEmpty_iff.mp hh)
    rw [hsome rv hroot, if_neg hrv, if_neg hkept, if_neg hie]
    exact ⟨rfl, rfl, rfl⟩
  · intro hfail
    rcases hfail with hroot | hroot | hkept | haps
    · rw [hnone hroot]
      exact ⟨rfl, rfl, rfl⟩
    · rw [hsome 0 hroot]
      exact ⟨rfl, rfl, rfl⟩
    · cases hroot : restoredRoot entries with
      | none =>
          rw [hnone hroot]
          exact ⟨rfl, rfl, rfl⟩
      | some rv =>
          by_cases hrv : rv = 0
          · rw [hsome rv hroot, if_pos hrv]
            exact ⟨rfl, rfl, rfl⟩
          · rw [hsome rv hroot, if_neg hrv, if_pos hkept]
            exact ⟨rfl, rfl, rfl⟩
    · have hie : (resolveAppenders st0 keys).isEmpty = true :=
        List.isEmpty_iff.mpr haps
      cases hroot : restoredRoot entries with
      | none =>
          rw [hnone hroot]
          exact ⟨rfl, rfl, rfl⟩
      | some rv =>
          by_cases hrv : rv = 0
          · rw [hsome rv hroot, if_pos hrv]
            exact ⟨rfl, rfl, rfl⟩
          · by_cases hkept : keptLevels entries = []
            · rw [hsome rv hroot, if_neg hrv, if_pos hkept]
              exact ⟨rfl, rfl, rfl⟩
            · rw [hsome rv hroot, if_neg hrv, if_neg hkept, if_pos hie]
              exact ⟨rfl, rfl, rfl⟩
  · intro hnd nm v
    rw [keptLevels_eq entries hnd, List.mem_filterMap]
    constructor
    · rintro ⟨p, hp, hkp⟩
      unfold keptOne at hkp
      cases hg : getValidLevel (.str p.2) with
      | none => rw [hg] at hkp; cases hkp
      | some w =>
          rw [hg] at hkp
          by_cases hw : w = 0
          · simp [hw] at hkp
          · simp [hw] at hkp
            obtain ⟨h1, h2⟩ := hkp
            refine ⟨p.2, ?_, ?_, ?_⟩
            · rw [← h1]
              exact hp
            · rw [← h2]
              exact hg
            · rw [← h2]
              exact hw
    · rintro ⟨s, hs', hg, hv⟩
      refine ⟨(nm, s), hs', ?_⟩
      simp [keptOne, hg, hv]

/-- Claim C3, counterexample: on `stR` the persisted record is
`levels = {__root: INFO, foo: OFF}, appenders = [console]` — all three of
the claim's conditions hold and the string `"OFF"` normalizes successfully
(to the canonical value `OFF = 0`) — yet after `restoreConfig` the `foo`
entry is NOT adopted: the truthy test `if (level)` drops an override that
normalized to `OFF`, so only `__root` survives while root and appenders are
adopted. -/
theorem c3_counterexample :
    getValidLevel (.str "OFF") = some 0 ∧
    (restoreConfig stR).theRootLevel = 3 ∧
    (restoreConfig stR).appenders = [("console", 0)] ∧
    objGet (restoreConfig stR).storedLevels "foo" = none := by decide

/-- Claim C3, witness: the amended adoption statement applied to `stR`. -/
theorem c3_witness :
    restoredRoot entsR = some 3 ∧
    (restoreConfig stR).storedLevels = keptLevels entsR ∧
    (restoreConfig stR).theRootLevel = 3 ∧
    (restoreConfig stR).appenders = resolveAppenders stR keysR :=
  ⟨by decide,
    ((c3_theorem Nat stR entsR keysR rfl rfl).1 3 (by decide) (by decide)
      (by decide) (by decide)).1,
    ((c3_theorem Nat stR entsR keysR rfl rfl).1 3 (by decide) (by decide)
      (by decide) (by decide)).2.1,
    ((c3_theorem Nat stR entsR keysR rfl rfl).1 3 (by decide) (by decide)
      (by decide) (by decide)).2.2⟩

end Yalog
